import Mathlib

/-!
Verification development for the DiligentSamples GLTF viewer and its GPU resource
cache / streaming allocator specification.

The repository sources at hand are `Samples/GLTFViewer/src/GLTFViewer.cpp` and
`Samples/SampleBase/src/Win32/WinMain.cpp`.  The core components the specification
describes (Buffer Pool Allocator, Resource Manager, Texture Atlas, Transform Engine,
Resource Binding Cache) live in DiligentCore/DiligentTools and are not part of these
sources; where a definition embeds such a component it is modelled from the spec and
says so in its doc comment.  Everything else is translated from the C++ sources.

Numeric conventions: C++ `float`/`double` quantities are embedded as rationals (`ℚ`),
`std::vector` as `List`, raw pointers as `Option`, and exceptions as `Except`.
-/

namespace Diligent

/-! ## Rational embedding of C numeric primitives -/

/-- Truncation toward zero, as C integer conversion / `std::fmod` use. -/
def ratTrunc (q : ℚ) : ℤ := if 0 ≤ q then ⌊q⌋ else ⌈q⌉

/-- `std::fmod` on rationals: the remainder `x - trunc(x / y) * y`, which has the sign
of the dividend `x` (C99 semantics for finite arguments). -/
def ratFmod (x y : ℚ) : ℚ := x - y * ratTrunc (x / y)

/-! ## Buffer Pool Allocator (spec section 4.1)

The Buffer Pool Allocator is DiligentCore code that is not part of this repository's
sources (only its callers are).  Modelled from the spec: "free-list of contiguous slot
ranges ordered by offset; allocation takes the first sufficiently large free range
(first-fit), splitting the remainder back into the free list; release merges the freed
range with adjacent free neighbors (coalescing)". -/

/-- A suballocated range of one buffer pool, in element units.  The spec's `PoolRegion`
is `{pool-id, byte-offset, element-count}`; here the pool id is implicit (one
`BufferPool` value models one pool) and the byte offset is `Offset * Stride`. -/
structure PoolRegion where
  Offset : Nat
  Count : Nat
deriving DecidableEq

/-- State of one fixed-capacity buffer pool.  `FreeList` is the offset-ordered free
list of the spec; `Live` records the regions currently handed out and not yet released
(they are exclusively owned by the requesting asset model per spec section 3, so the
allocator's clients hold them; we carry them in the state to express the liveness
invariant). -/
structure BufferPool where
  Stride : Nat
  Capacity : Nat
  FreeList : List PoolRegion
  Live : List PoolRegion
deriving DecidableEq

/-- First-fit search: take the first free range that can hold `n` elements, splitting
the remainder back into the free list in place.  Returns the acquired region and the
updated free list. -/
def firstFit (n : Nat) : List PoolRegion → Option (PoolRegion × List PoolRegion)
  | [] => none
  | f :: rest =>
    if n ≤ f.Count then
      some (⟨f.Offset, n⟩, if n < f.Count then ⟨f.Offset + n, f.Count - n⟩ :: rest else rest)
    else
      match firstFit n rest with
      | none => none
      | some (r, rest') => some (r, f :: rest')

/-- `acquire(elementCount) -> PoolRegion | OUT_OF_SPACE` (spec section 4.1).
A zero-element request is rejected by validation ("`elementCount` is validated
against the pool's fixed per-element stride"); `none` is the `OUT_OF_SPACE` result. -/
def acquire (n : Nat) (p : BufferPool) : Option PoolRegion × BufferPool :=
  if n = 0 then (none, p)
  else
    match firstFit n p.FreeList with
    | none => (none, p)
    | some (r, free') => (some r, { p with FreeList := free', Live := r :: p.Live })

/-- Insert a freed range into the offset-ordered free list. -/
def insertFree (r : PoolRegion) : List PoolRegion → List PoolRegion
  | [] => [r]
  | f :: rest => if r.Offset ≤ f.Offset then r :: f :: rest else f :: insertFree r rest

/-- Merge exactly-adjacent neighbors in the free list (coalescing). -/
def coalesce : List PoolRegion → List PoolRegion
  | [] => []
  | [f] => [f]
  | f :: g :: rest =>
    if f.Offset + f.Count = g.Offset then coalesce (⟨f.Offset, f.Count + g.Count⟩ :: rest)
    else f :: coalesce (g :: rest)
termination_by l => l.length
decreasing_by
  all_goals simp_arith [List.length]

/-- `release(PoolRegion)` (spec section 4.1): return an exclusively owned live region
to the free list, coalescing with adjacent free neighbors.  Releasing a region the
pool never handed out violates the ownership contract and is modelled as a no-op. -/
def release (r : PoolRegion) (p : BufferPool) : BufferPool :=
  if r ∈ p.Live then
    { p with Live := p.Live.erase r, FreeList := coalesce (insertFree r p.FreeList) }
  else p

/-- One step of a client interaction with a pool. -/
inductive PoolOp
  | acquireOp (n : Nat)
  | releaseOp (r : PoolRegion)
deriving DecidableEq

def applyOp (p : BufferPool) : PoolOp → BufferPool
  | .acquireOp n => (acquire n p).2
  | .releaseOp r => release r p

def applyOps (p : BufferPool) (ops : List PoolOp) : BufferPool := ops.foldl applyOp p

/-- A freshly created pool: the whole capacity is one free range. -/
def initPool (stride capacity : Nat) : BufferPool :=
  ⟨stride, capacity, if capacity = 0 then [] else [⟨0, capacity⟩], []⟩

/-- Two regions occupy disjoint element ranges. -/
def PoolRegion.disjoint (r s : PoolRegion) : Prop :=
  r.Offset + r.Count ≤ s.Offset ∨ s.Offset + s.Count ≤ r.Offset

instance (r s : PoolRegion) : Decidable (r.disjoint s) := by
  unfold PoolRegion.disjoint; infer_instance

/-- Two regions of a pool with the given per-element stride overlap in byte range:
their byte intervals `[Offset * stride, (Offset + Count) * stride)` intersect. -/
def PoolRegion.bytesOverlap (stride : Nat) (r s : PoolRegion) : Prop :=
  r.Offset * stride < (s.Offset + s.Count) * stride ∧
  s.Offset * stride < (r.Offset + r.Count) * stride

instance (stride : Nat) (r s : PoolRegion) : Decidable (r.bytesOverlap stride s) := by
  unfold PoolRegion.bytesOverlap; infer_instance

/-- Allocator invariant: live regions and free ranges are mutually disjoint element
ranges, and every tracked range is nonempty. -/
def PoolInv (p : BufferPool) : Prop :=
  (p.Live ++ p.FreeList).Pairwise PoolRegion.disjoint ∧
  ∀ r ∈ p.Live ++ p.FreeList, 0 < r.Count

/-! ## Resource Binding Cache (spec section 4.6)

The Resource Binding Cache is renderer code that is not part of this repository's
sources.  Modelled from the spec: "Maps a key = (pipeline-state identity, tuple of
PoolRegion/AtlasRegion identities in use) to a previously built binding object.
Lookup is a pure cache — a miss triggers construction and insertion; any operation
that changes the underlying buffer/texture handle behind a PoolRegion or AtlasRegion
(pool growth, atlas reflow) must invalidate every cache entry referencing that
region's pool/atlas id, not just the affected region." -/

/-- Cache key: pipeline-state identity plus the identities of the regions in use,
each region identity being a (pool id, offset) pair. -/
structure BindingCacheKey where
  Pipeline : Nat
  Regions : List (Nat × Nat)
deriving DecidableEq

/-- A built binding object.  `BuildId` is the construction counter value at build
time (distinct builds get distinct ids); `PoolIds` records the pools whose backing
resources the descriptor set references. -/
structure BindingSet where
  BuildId : Nat
  PoolIds : List Nat
deriving DecidableEq

structure BindingCache where
  Entries : List (BindingCacheKey × BindingSet)
  NextBuildId : Nat
deriving DecidableEq

def emptyBindingCache : BindingCache := ⟨[], 0⟩

/-- Construct a binding set for a key: it references exactly the pools of the key's
regions. -/
def buildBindingSet (key : BindingCacheKey) (id : Nat) : BindingSet :=
  ⟨id, key.Regions.map Prod.fst⟩

/-- `acquireBindings` (spec sections 4.6, 6): pure cache lookup; a miss triggers
construction and insertion. -/
def acquireBindings (key : BindingCacheKey) (c : BindingCache) :
    BindingSet × BindingCache :=
  match c.Entries.find? (fun e => decide (e.1 = key)) with
  | some e => (e.2, c)
  | none =>
    let bs := buildBindingSet key c.NextBuildId
    (bs, ⟨(key, bs) :: c.Entries, c.NextBuildId + 1⟩)

/-- Pool growth reallocates the whole backing buffer, so it invalidates every cache
entry referencing the grown pool's id, not just the affected region. -/
def invalidatePool (poolId : Nat) (c : BindingCache) : BindingCache :=
  { c with Entries := c.Entries.filter (fun e => !(e.2.PoolIds.contains poolId)) }

/-- Cache well-formation: cached build ids predate the construction counter, and no
key appears twice. -/
def CacheInv (c : BindingCache) : Prop :=
  (∀ e ∈ c.Entries, e.2.BuildId < c.NextBuildId) ∧
  (c.Entries.map Prod.fst).Nodup

/-! ## Resource Manager construction configuration (spec sections 4.4, 6)

Translated from `GLTFViewer::CreateGLTFResourceCache` (GLTFViewer.cpp lines 155-211).
The descriptor structures mirror the DiligentCore types the function fills in; only
the fields that function touches are embedded. -/

inductive BindFlag
  | VertexBuffer
  | IndexBuffer
  | ShaderResource
deriving DecidableEq

inductive ResourceDimension
  | Tex2D
  | Tex2DArray
deriving DecidableEq

inductive ResourceUsage
  | Default
deriving DecidableEq

inductive TextureFormat
  | RGBA8Unorm
  | Unknown
deriving DecidableEq

/-- `VertexPoolElementDesc{Stride, BindFlags}`. -/
structure VertexPoolElementDesc where
  Size : Nat
  BindFlags : BindFlag
deriving DecidableEq

/-- The `Desc` part of `VertexPoolCreateInfo` as filled by the viewer. -/
structure VertexPoolDesc where
  Name : String
  VertexCount : Nat
  Elements : List VertexPoolElementDesc
deriving DecidableEq

/-- The `Desc` part of `DynamicTextureAtlasCreateInfo` as filled by the viewer. -/
structure DynamicTextureAtlasDesc where
  Name : String
  Dim : ResourceDimension
  Usage : ResourceUsage
  BindFlags : BindFlag
  Format : TextureFormat
  Width : Nat
  Height : Nat
  MipLevels : Nat
deriving DecidableEq

/-- The `Desc` part of the index-allocator (dynamic buffer) create info. -/
structure IndexBufferAllocatorDesc where
  Name : String
  BindFlags : BindFlag
  Usage : ResourceUsage
  Size : Nat
deriving DecidableEq

/-- `GLTF::ResourceManager::CreateInfo` as filled by the viewer. -/
structure ResourceManagerCreateInfo where
  IndexAllocatorDesc : IndexBufferAllocatorDesc
  NumVertexPools : Nat
  VertexPoolCIs : List VertexPoolDesc
  DefaultAtlasDesc : DynamicTextureAtlasDesc
deriving DecidableEq

/-- Modelled from the spec: the Resource Manager (DiligentTools code, not in this
repository's sources) consumes the capacity configuration supplied at construction
and does not produce it; we record the construction-time configuration. -/
structure ResourceManager where
  CI : ResourceManagerCreateInfo
deriving DecidableEq

def ResourceManager.create (ci : ResourceManagerCreateInfo) : ResourceManager := ⟨ci⟩

/-- The default field values of `DynamicTextureAtlasCreateInfo::Desc` (the C++
`TextureDesc` default-initializes its name to null and format to unknown). -/
def defaultAtlasDescInit : DynamicTextureAtlasDesc :=
  ⟨"", ResourceDimension.Tex2D, ResourceUsage.Default, BindFlag.ShaderResource,
    TextureFormat.Unknown, 0, 0, 0⟩

/-- The resource-manager configuration built by `GLTFViewer::CreateGLTFResourceCache`
(lines 157-201), parameterized by the per-stream strides.  In the C++ the strides come
from `GLTF::VertexAttributesToInputLayout(GLTF::DefaultVertexAttributes...).
ResolveAutoOffsetsAndStrides()` — DiligentTools code not in this repository's sources —
so the resolved stride list is a parameter here. -/
def gltfResourceMgrCI (Strides : List Nat) : ResourceManagerCreateInfo :=
  let VtxPoolElems := Strides.map (fun s => VertexPoolElementDesc.mk s BindFlag.VertexBuffer)
  let VtxPoolCI : VertexPoolDesc :=
    { Name := "GLTF vertex pool", VertexCount := 32768, Elements := VtxPoolElems }
  { IndexAllocatorDesc :=
      { Name := "GLTF index buffer", BindFlags := BindFlag.IndexBuffer,
        Usage := ResourceUsage.Default,
        -- sizeof(Uint32) * 8 << 10
        Size := (4 * 8) <<< 10 },
    NumVertexPools := 1,
    VertexPoolCIs := [VtxPoolCI],
    DefaultAtlasDesc :=
      { defaultAtlasDescInit with
        Dim := ResourceDimension.Tex2DArray, Usage := ResourceUsage.Default,
        BindFlags := BindFlag.ShaderResource,
        Width := 4096, Height := 4096, MipLevels := 6 } }

/-! ## Matrices, vectors and bounding boxes

C++ `float4x4` / `float3` values are embedded over the rationals. -/

/-- A 4×4 matrix (`float4x4`). -/
abbrev Mat4 := Matrix (Fin 4) (Fin 4) ℚ

/-- A 3-component vector (`float3`). -/
abbrev Vec3 := ℚ × ℚ × ℚ

def vsub (a b : Vec3) : Vec3 := (a.1 - b.1, a.2.1 - b.2.1, a.2.2 - b.2.2)

def vneg (a : Vec3) : Vec3 := (-a.1, -a.2.1, -a.2.2)

def vscale (s : ℚ) (a : Vec3) : Vec3 := (s * a.1, s * a.2.1, s * a.2.2)

def vmin (a b : Vec3) : Vec3 := (min a.1 b.1, min a.2.1 b.2.1, min a.2.2 b.2.2)

def vmax (a b : Vec3) : Vec3 := (max a.1 b.1, max a.2.1 b.2.1, max a.2.2 b.2.2)

/-- `BoundBox{Min, Max}`. -/
structure BoundBox where
  Min : Vec3
  Max : Vec3
deriving DecidableEq

def zeroBoundBox : BoundBox := ⟨(0, 0, 0), (0, 0, 0)⟩

/-- `float4x4::Translation` (row-vector convention: translation in the fourth row). -/
def float4x4Translation (t : Vec3) : Mat4 :=
  !![1, 0, 0, 0; 0, 1, 0, 0; 0, 0, 1, 0; t.1, t.2.1, t.2.2, 1]

/-- `float4x4::Scale` with a uniform factor. -/
def float4x4Scale (s : ℚ) : Mat4 :=
  !![s, 0, 0, 0; 0, s, 0, 0; 0, 0, s, 0; 0, 0, 0, 1]

/-- `float4x4::Identity()` with `_22 = -1` (GLTFViewer.cpp lines 137-138). -/
def invYAxisMat : Mat4 :=
  !![1, 0, 0, 0; 0, -1, 0, 0; 0, 0, 1, 0; 0, 0, 0, 1]

/-- Transform a point by a matrix, row-vector convention with `w = 1`. -/
def transformPoint (v : Vec3) (M : Mat4) : Vec3 :=
  let w := Matrix.vecMul ![v.1, v.2.1, v.2.2, 1] M
  (w 0, w 1, w 2)

def bbCorners (bb : BoundBox) : List Vec3 :=
  [(bb.Min.1, bb.Min.2.1, bb.Min.2.2), (bb.Min.1, bb.Min.2.1, bb.Max.2.2),
   (bb.Min.1, bb.Max.2.1, bb.Min.2.2), (bb.Min.1, bb.Max.2.1, bb.Max.2.2),
   (bb.Max.1, bb.Min.2.1, bb.Min.2.2), (bb.Max.1, bb.Min.2.1, bb.Max.2.2),
   (bb.Max.1, bb.Max.2.1, bb.Min.2.2), (bb.Max.1, bb.Max.2.1, bb.Max.2.2)]

/-- Fold a bound box through a matrix: transform its corners and take the running
componentwise min/max. -/
def transformBoundBox (bb : BoundBox) (M : Mat4) : BoundBox :=
  match (bbCorners bb).map (fun c => transformPoint c M) with
  | [] => bb
  | c :: cs => ⟨cs.foldl vmin c, cs.foldl vmax c⟩

def bbUnion (a b : BoundBox) : BoundBox := ⟨vmin a.Min b.Min, vmax a.Max b.Max⟩

/-! ## The asset model and the Transform Engine (spec sections 3, 4.5)

`GLTF::Model`, `GLTF::Camera` and `Model::ComputeTransforms` are DiligentTools code
not in this repository's sources; only the fields and behavior the spec describes and
the viewer uses are embedded, modelled from the spec. -/

inductive CameraProjection
  | Perspective
  | Orthographic
deriving DecidableEq

/-- `GLTF::Camera` (the fields the viewer reads). -/
structure Camera where
  Ty : CameraProjection
  Name : String
deriving DecidableEq

/-- A scene-graph node: local transform, parent back-reference (an index into the
model's flat node array, per spec section 9), optional camera, and the local-space
bounds of its mesh primitives if it has a mesh. -/
structure Node where
  Index : Nat
  Parent : Option Nat
  LocalMatrix : Mat4
  pCamera : Option Camera
  MeshBB : Option BoundBox
deriving DecidableEq

/-- A `GLTF::Scene`: its cached linearized traversal order (a topological order where
every parent precedes its children, computed once at load time). -/
structure Scene where
  Name : String
  LinearNodes : List Node
deriving DecidableEq

def emptyScene : Scene := ⟨"", []⟩

inductive AnimInterpolationMode
  | Step
  | Linear
deriving DecidableEq

/-- Modelled from the spec: an animation channel targets one node with time-ordered
(time, value) keyframes and an interpolation mode.  The sampled value is embedded as
the node's whole local-transform matrix for that instant. -/
structure AnimationChannel where
  NodeId : Nat
  Interpolation : AnimInterpolationMode
  Keyframes : List (ℚ × Mat4)
deriving DecidableEq

/-- A `GLTF::Animation`: named channel set with scalar duration `End` equal to the
latest keyframe time across all channels. -/
structure Animation where
  Name : String
  Channels : List AnimationChannel
  End : ℚ
deriving DecidableEq

def emptyAnimation : Animation := ⟨"", [], 0⟩

/-- The parts of `GLTF::Model` the viewer and the Transform Engine consume.
`NodeCount` is the size of the flat node array the global-matrix output is indexed
by. -/
structure Model where
  NodeCount : Nat
  Scenes : List Scene
  Animations : List Animation
  DefaultSceneId : Nat
deriving DecidableEq

/-- The per-scene evaluation output (`GLTF::ModelTransforms`): node index to global
4×4 matrix. -/
structure ModelTransforms where
  NodeGlobalMatrices : List Mat4
deriving DecidableEq

/-- Locate the bracketing keyframe pair for time `t` in the time-ordered keyframe
list and interpolate per the channel's mode (spec section 4.5 step 1); times before
the first keyframe clamp to the first value and times at or past the last clamp to
the last. -/
def sampleSegments (interp : AnimInterpolationMode) (t : ℚ) :
    (ℚ × Mat4) → List (ℚ × Mat4) → Mat4
  | (_, v0), [] => v0
  | (t0, v0), (t1, v1) :: rest =>
    if t < t0 then v0
    else if t < t1 then
      match interp with
      | .Step => v0
      | .Linear => v0 + ((t - t0) / (t1 - t0)) • (v1 - v0)
    else sampleSegments interp t (t1, v1) rest

/-- Sample one channel at time `t`; a channel with no keyframes contributes nothing. -/
def sampleChannel (ch : AnimationChannel) (t : ℚ) : Option Mat4 :=
  match ch.Keyframes with
  | [] => none
  | k :: rest => some (sampleSegments ch.Interpolation t k rest)

/-- The node's local transform for this evaluation: every channel of the active
animation targeting the node overwrites it with the sampled value — ephemeral state
local to the evaluation; the source node transform is not mutated. -/
def animatedLocal (anim : Animation) (t : ℚ) (n : Node) : Mat4 :=
  anim.Channels.foldl
    (fun acc ch => if ch.NodeId = n.Index then (sampleChannel ch t).getD acc else acc)
    n.LocalMatrix

/-- Modelled from the spec (section 4.5): `Model::ComputeTransforms`.  If an animation
index and time are supplied, channels of that animation override node local
transforms for this evaluation only; then the scene's cached linear node order is
traversed, composing each node's global matrix as parent-global × local with the
caller-supplied root transform standing in for the parent of roots.  The destination
`ModelTransforms` (the C++ in-out parameter `prev`) is recomputed wholesale and its
previous contents are never read. -/
def computeTransforms (m : Model) (sceneIndex : Nat) (prev : ModelTransforms)
    (rootTransform : Mat4 := 1) (anim : Option (Nat × ℚ) := none) : ModelTransforms :=
  let _ := prev
  let scene := m.Scenes.getD sceneIndex emptyScene
  let localOf : Node → Mat4 := fun n =>
    match anim with
    | none => n.LocalMatrix
    | some (ai, t) =>
      match m.Animations.get? ai with
      | none => n.LocalMatrix
      | some a => animatedLocal a t n
  let step := fun (globals : List Mat4) (n : Node) =>
    let parentGlobal :=
      match n.Parent with
      | none => rootTransform
      | some pIdx => globals.getD pIdx 1
    globals.set n.Index (parentGlobal * localOf n)
  ⟨scene.LinearNodes.foldl step (List.replicate m.NodeCount 1)⟩

/-- Modelled from the spec (section 4.5 step 3): `Model::ComputeBoundingBox` folds
every mesh primitive's local-space bounds through its node's global matrix into a
running min/max. -/
def computeBoundingBox (m : Model) (sceneIndex : Nat) (tr : ModelTransforms) :
    BoundBox :=
  let scene := m.Scenes.getD sceneIndex emptyScene
  let step := fun (acc : Option BoundBox) (n : Node) =>
    match n.MeshBB with
    | none => acc
    | some bb =>
      let tbb := transformBoundBox bb (tr.NodeGlobalMatrices.getD n.Index 1)
      match acc with
      | none => some tbb
      | some cur => some (bbUnion cur tbb)
  (scene.LinearNodes.foldl step none).getD zeroBoundBox

/-! ## The GLTFViewer sample (GLTFViewer.cpp) -/

/-- `GLTF::ModelCreateInfo` as filled by `GLTFViewer::LoadModel` (lines 95-98). -/
structure GLTFModelCreateInfo where
  FileName : String
  pResourceManager : Option ResourceManager
  ComputeBoundingBoxes : Bool

/-- Upstream decode failure, opaque to this core (spec section 7 `LOAD_ERROR`). -/
structure LoadError where
  Msg : String
deriving DecidableEq

/-- The `GLTFViewer` members the embedded operations touch.  GPU objects
(renderer, PSOs, SRBs, swap chain) are external collaborators and are not part of
the state.  `SceneIndex` is `m_RenderParams.SceneIndex`. -/
structure GLTFViewerState where
  m_Model : Option Model
  m_Transforms : ModelTransforms
  m_ModelAABB : BoundBox
  m_ModelTransform : Mat4
  SceneIndex : Nat
  m_PlayAnimation : Bool
  m_AnimationIndex : Nat
  m_AnimationTimers : List ℚ
  m_CameraId : Nat
  m_CameraNodes : List Node
  m_bUseResourceCache : Bool
  m_bComputeBoundingBoxes : Bool
  m_InitialModelPath : String
  m_pResourceMgr : Option ResourceManager

/-- GLTFViewer.cpp lines 88-93: on a reload (a model is already active) the animation
playback state is reset before the new model is created. -/
def clearAnimationStateOnReload (st : GLTFViewerState) : GLTFViewerState :=
  if st.m_Model.isSome then
    { st with m_PlayAnimation := false, m_AnimationIndex := 0, m_AnimationTimers := [] }
  else st

/-- `std::vector<float>::resize(n)`: keep the first `n` entries, value-initialize
(zero) any newly added ones. -/
def vectorResize (l : List ℚ) (n : Nat) : List ℚ :=
  l.take n ++ List.replicate (n - l.length) 0

/-- The camera filter of GLTFViewer.cpp lines 116-120: the node carries a camera of
perspective projection type. -/
def isPerspectiveCameraNode (n : Node) : Bool :=
  match n.pCamera with
  | some c =>
    match c.Ty with
    | CameraProjection.Perspective => true
    | CameraProjection.Orthographic => false
  | none => false

/-- `GLTFViewer::UpdateScene` (lines 123-143): recompute transforms and bounds,
derive the centering/scaling model transform, and recompute both with it. -/
def updateScene (st : GLTFViewerState) : GLTFViewerState :=
  match st.m_Model with
  | none => st
  | some m =>
    let tr1 := computeTransforms m st.SceneIndex st.m_Transforms
    let aabb1 := computeBoundingBox m st.SceneIndex tr1
    let ModelDim := vsub aabb1.Max aabb1.Min
    let MaxDim := max (max (max 0 ModelDim.1) ModelDim.2.1) ModelDim.2.2
    let Scale := (1 / max MaxDim (1/100)) * (1/2)
    let Translate := vsub (vneg aabb1.Min) (vscale (1/2) ModelDim)
    let ModelTransform := float4x4Translation Translate * float4x4Scale Scale * invYAxisMat
    let tr2 := computeTransforms m st.SceneIndex tr1 ModelTransform
    let aabb2 := computeBoundingBox m st.SceneIndex tr2
    { st with m_Transforms := tr2, m_ModelAABB := aabb2, m_ModelTransform := ModelTransform }

/-- The `GLTF::ModelCreateInfo` built by `GLTFViewer::LoadModel` (lines 95-98): the
shared resource manager is attached only when `m_bUseResourceCache` is set, and the
`ComputeBoundingBoxes` flag is forwarded from `m_bComputeBoundingBoxes`. -/
def gltfViewerModelCI (st : GLTFViewerState) (Path : String) : GLTFModelCreateInfo :=
  { FileName := Path,
    pResourceManager := if st.m_bUseResourceCache then st.m_pResourceMgr else none,
    ComputeBoundingBoxes := st.m_bComputeBoundingBoxes }

/-- The success path of `GLTFViewer::LoadModel` (lines 100-120) once the model
object has been created: store it, select its default scene, run `UpdateScene`,
enable animation playback when the model has animations, and rebuild the camera-node
list from the active scene.  The `CreateResourceBindings` call (line 102) produces
renderer-side GPU objects outside this state. -/
def loadModelOk (m : Model) (st : GLTFViewerState) : GLTFViewerState :=
  let st1 := clearAnimationStateOnReload st
  let st2 := { st1 with m_Model := some m, SceneIndex := m.DefaultSceneId }
  let st3 := updateScene st2
  let st4 :=
    if !m.Animations.isEmpty then
      { st3 with
        m_AnimationTimers := vectorResize st3.m_AnimationTimers m.Animations.length,
        m_AnimationIndex := 0,
        m_PlayAnimation := true }
    else st3
  { st4 with
    m_CameraId := 0,
    m_CameraNodes :=
      (m.Scenes.getD st4.SceneIndex emptyScene).LinearNodes.filter isPerspectiveCameraNode }

/-- `GLTFViewer::LoadModel` (lines 86-121).  `createModel` stands for the
`GLTF::Model` constructor (DiligentTools code not in this repository's sources);
modelled from the spec, it either yields a fully loaded model or fails with a
`LoadError` — in the C++ the constructor throws, so `m_Model.reset` is never executed
on failure, the remaining statements are skipped, and the exception propagates to the
caller; this is embedded by returning the error together with the state as mutated so
far. -/
def loadModel (createModel : GLTFModelCreateInfo → Except LoadError Model)
    (Path : String) (st : GLTFViewerState) :
    Except (LoadError × GLTFViewerState) GLTFViewerState :=
  let st1 := clearAnimationStateOnReload st
  let ModelCI := gltfViewerModelCI st Path
  match createModel ModelCI with
  | .error e => .error (e, st1)
  | .ok m => .ok (loadModelOk m st)

inductive CommandLineStatus
  | OK
deriving DecidableEq

/-- `GLTFViewer::ProcessCommandLine` (lines 145-153).  `CommandLineParser::Parse` is
DiligentTools code not in this repository's sources; modelled from the spec's external
interface: parsing assigns the destination variable only when the named option
appears on the command line, so the parse results are passed in as partial maps. -/
def processCommandLine (boolOpt : String → Option Bool)
    (strOpt : String → Option String) (st : GLTFViewerState) :
    GLTFViewerState × CommandLineStatus :=
  let st1 := { st with m_bUseResourceCache := (boolOpt "use_cache").getD st.m_bUseResourceCache }
  let st2 := { st1 with m_InitialModelPath := (strOpt "model").getD st1.m_InitialModelPath }
  let st3 := { st2 with m_bComputeBoundingBoxes := (boolOpt "compute_bounds").getD st2.m_bComputeBoundingBoxes }
  (st3, CommandLineStatus.OK)

/-- `GLTFViewer::CreateGLTFResourceCache` (lines 155-211) as a state update: build the
configuration and create the shared resource manager.  (`m_CacheUseInfo` is
renderer-side and not part of this state.) -/
def createGLTFResourceCacheState (Strides : List Nat) (st : GLTFViewerState) :
    GLTFViewerState :=
  { st with m_pResourceMgr := some (ResourceManager.create (gltfResourceMgrCI Strides)) }

/-- The resource-cache part of `GLTFViewer::Initialize` (lines 282-283): the shared
resource manager is created exactly when `m_bUseResourceCache` is set. -/
def initializeResourceCache (Strides : List Nat) (st : GLTFViewerState) :
    GLTFViewerState :=
  if st.m_bUseResourceCache then createGLTFResourceCacheState Strides st else st

/-- The viewer state after startup: the sample framework calls `ProcessCommandLine`
before `Initialize`, and `Initialize` (lines 282-283) creates the shared resource
cache exactly when `m_bUseResourceCache` is set. -/
def viewerAfterStartup (boolOpt : String → Option Bool)
    (strOpt : String → Option String) (Strides : List Nat)
    (st : GLTFViewerState) : GLTFViewerState :=
  initializeResourceCache Strides (processCommandLine boolOpt strOpt st).1

/-- The arguments of a `Model::ComputeTransforms` call made by the viewer with an
active animation. -/
structure EngineTransformsCall where
  SceneIndex : Nat
  RootTransform : Mat4
  AnimationIndex : Nat
  AnimationTime : ℚ

/-- The animation step of `GLTFViewer::Update` (lines 685-691): when the model has
animations and playback is on, advance the active animation timer by the elapsed
time, wrap it with `std::fmod` by the animation's `End`, and hand the wrapped time to
`ComputeTransforms`.  The camera/UI updates of lines 677-683 drive external
collaborators and are not part of this state; the C++ indexes
`m_AnimationTimers[m_AnimationIndex]` directly (the index is kept in range by
`LoadModel` and the UI), embedded here with `getD`/`set`.  Returns the new state and
the transform-engine call made, if any. -/
def viewerUpdate (ElapsedTime : ℚ) (st : GLTFViewerState) :
    GLTFViewerState × Option EngineTransformsCall :=
  match st.m_Model with
  | none => (st, none)
  | some m =>
    if !m.Animations.isEmpty && st.m_PlayAnimation then
      let t0 := st.m_AnimationTimers.getD st.m_AnimationIndex 0
      let t1 := t0 + ElapsedTime
      let t2 := ratFmod t1 (m.Animations.getD st.m_AnimationIndex emptyAnimation).End
      let call : EngineTransformsCall :=
        ⟨st.SceneIndex, st.m_ModelTransform, st.m_AnimationIndex, t2⟩
      ({ st with
          m_AnimationTimers := st.m_AnimationTimers.set st.m_AnimationIndex t2,
          m_Transforms :=
            computeTransforms m call.SceneIndex st.m_Transforms call.RootTransform
              (some (call.AnimationIndex, call.AnimationTime)) },
       some call)
    else (st, none)

/-! ## The main loop (WinMain.cpp lines 199-229) -/

/-- Observable steps of one pass of the Win32 message loop. -/
inductive FrameEvent
  | dispatchMsg (msg : Nat)
  | updateStep
  | renderStep
  | presentStep
deriving DecidableEq

/-- One iteration of the `while (WM_QUIT != msg.message)` loop: either a pending
message is translated and dispatched, or a frame is produced — `g_pSample->Update`
(which advances animation, recomputes transforms, and may synchronously load a model
from the UI), then `g_pSample->Render()`, then `pSwapChain->Present()`, in that
order on the single caller thread. -/
def loopIteration : Option Nat → List FrameEvent
  | some m => [FrameEvent.dispatchMsg m]
  | none => [FrameEvent.updateStep, FrameEvent.renderStep, FrameEvent.presentStep]

/-- The event trace of the main message loop over a sequence of iterations, each
either delivering a pending message or rendering a frame. -/
def mainLoopTrace (inputs : List (Option Nat)) : List FrameEvent :=
  (inputs.map loopIteration).flatten

/-! ## Decidability of the stated invariants -/

instance (p : BufferPool) : Decidable (PoolInv p) := by
  unfold PoolInv; infer_instance

instance (c : BindingCache) : Decidable (CacheInv c) := by
  unfold CacheInv; infer_instance

/-! ## Concrete fixtures used to evaluate the definitions -/

def wNodePersp : Node := ⟨0, none, 1, some ⟨CameraProjection.Perspective, "persp"⟩, none⟩

def wNodeOrtho : Node := ⟨1, some 0, 1, some ⟨CameraProjection.Orthographic, "ortho"⟩, none⟩

def wNodePlain : Node := ⟨2, some 0, 1, none, none⟩

def wScene : Scene := ⟨"scene0", [wNodePersp, wNodeOrtho, wNodePlain]⟩

def wAnimation : Animation := ⟨"anim0", [], 1⟩

def wModel : Model := ⟨3, [wScene], [wAnimation], 0⟩

/-- A fresh viewer state, as default-initialized before the first `LoadModel`. -/
def wInitState : GLTFViewerState :=
  { m_Model := none, m_Transforms := ⟨[]⟩, m_ModelAABB := zeroBoundBox,
    m_ModelTransform := 1, SceneIndex := 0, m_PlayAnimation := false,
    m_AnimationIndex := 0, m_AnimationTimers := [], m_CameraId := 0,
    m_CameraNodes := [], m_bUseResourceCache := false,
    m_bComputeBoundingBoxes := false, m_InitialModelPath := "",
    m_pResourceMgr := none }

/-- A state with `wModel` loaded and its animation playing. -/
def wPlayState : GLTFViewerState :=
  { wInitState with
    m_Model := some wModel, m_PlayAnimation := true, m_AnimationTimers := [0] }

/-- A model whose single animation has duration `End = 0` (a lone keyframe at time
zero yields exactly this duration). -/
def cexModel : Model := ⟨0, [emptyScene], [⟨"degenerate", [], 0⟩], 0⟩

/-- `cexModel` loaded and playing. -/
def cexState : GLTFViewerState :=
  { wInitState with
    m_Model := some cexModel, m_PlayAnimation := true, m_AnimationTimers := [0] }

def wKey : BindingCacheKey := ⟨1, [(5, 0)]⟩

def wCachedSet : BindingSet := ⟨0, [5]⟩

def wCache : BindingCache := ⟨[(wKey, wCachedSet)], 1⟩

/-! ## Supporting lemmas: `UpdateScene` touches only the transform outputs -/

theorem updateScene_m_Model (st : GLTFViewerState) :
    (updateScene st).m_Model = st.m_Model := by
  unfold updateScene; cases h : st.m_Model <;> simp [h]

theorem updateScene_SceneIndex (st : GLTFViewerState) :
    (updateScene st).SceneIndex = st.SceneIndex := by
  unfold updateScene; cases h : st.m_Model <;> simp [h]

theorem updateScene_m_PlayAnimation (st : GLTFViewerState) :
    (updateScene st).m_PlayAnimation = st.m_PlayAnimation := by
  unfold updateScene; cases h : st.m_Model <;> simp [h]

theorem updateScene_m_AnimationIndex (st : GLTFViewerState) :
    (updateScene st).m_AnimationIndex = st.m_AnimationIndex := by
  unfold updateScene; cases h : st.m_Model <;> simp [h]

theorem updateScene_m_AnimationTimers (st : GLTFViewerState) :
    (updateScene st).m_AnimationTimers = st.m_AnimationTimers := by
  unfold updateScene; cases h : st.m_Model <;> simp [h]

theorem updateScene_m_CameraId (st : GLTFViewerState) :
    (updateScene st).m_CameraId = st.m_CameraId := by
  unfold updateScene; cases h : st.m_Model <;> simp [h]

theorem updateScene_m_CameraNodes (st : GLTFViewerState) :
    (updateScene st).m_CameraNodes = st.m_CameraNodes := by
  unfold updateScene; cases h : st.m_Model <;> simp [h]

/-! ## Supporting lemmas: C `fmod` range -/

theorem ratFmod_nonneg_lt (x y : ℚ) (hx : 0 ≤ x) (hy : 0 < y) :
    0 ≤ ratFmod x y ∧ ratFmod x y < y := by
  have hxy : 0 ≤ x / y := div_nonneg hx hy.le
  have hfe : ratFmod x y = y * Int.fract (x / y) := by
    unfold ratFmod ratTrunc Int.fract
    rw [if_pos hxy, mul_sub, mul_comm y (x / y), div_mul_cancel₀ x hy.ne']
  constructor
  · rw [hfe]; exact mul_nonneg hy.le (Int.fract_nonneg _)
  · rw [hfe]
    calc y * Int.fract (x / y) < y * 1 :=
          mul_lt_mul_of_pos_left (Int.fract_lt_one _) hy
      _ = y := mul_one y

/-- C1: a call to `GLTFViewer::LoadModel` whose model creation fails leaves the
previously active model, if any, in place and still active (the `m_Model.reset` on
line 100 is never executed), and the error is surfaced to the caller (the exception
propagates). -/
theorem loadModel_failure_leaves_active_model
    (createModel : GLTFModelCreateInfo → Except LoadError Model)
    (Path : String) (st : GLTFViewerState) (e : LoadError)
    (hfail : createModel (gltfViewerModelCI st Path) = Except.error e) :
    loadModel createModel Path st = Except.error (e, clearAnimationStateOnReload st) ∧
    (clearAnimationStateOnReload st).m_Model = st.m_Model := by
  constructor
  · simp only [loadModel, hfail]
  · unfold clearAnimationStateOnReload
    split <;> rfl

/-- Witness for C1 at a concrete failing load from the initial state. -/
theorem loadModel_failure_leaves_active_model_witness :
    ((fun _ => Except.error ⟨"cannot open file"⟩ :
        GLTFModelCreateInfo → Except LoadError Model)
      (gltfViewerModelCI wInitState "missing.gltf") = Except.error ⟨"cannot open file"⟩) ∧
    (loadModel (fun _ => Except.error ⟨"cannot open file"⟩) "missing.gltf" wInitState =
        Except.error (⟨"cannot open file"⟩, clearAnimationStateOnReload wInitState) ∧
      (clearAnimationStateOnReload wInitState).m_Model = wInitState.m_Model) :=
  ⟨rfl, loadModel_failure_leaves_active_model _ _ _ _ rfl⟩

/-- C2: `ComputeTransforms` is deterministic — its result is a pure function of the
model's node local transforms, the selected animation sample and the root transform;
in particular it is independent of the previous contents of the destination
`ModelTransforms` (the only state that persists across calls), so two evaluations
with identical inputs produce identical (hence bit-identical) global matrices. -/
theorem computeTransforms_deterministic (m : Model) (sceneIndex : Nat)
    (prev prev' : ModelTransforms) (root : Mat4) (anim : Option (Nat × ℚ)) :
    computeTransforms m sceneIndex prev root anim =
      computeTransforms m sceneIndex prev' root anim := rfl

/-- C6: the model-create call attaches the shared resource manager exactly when
`m_bUseResourceCache` (parsed from the `use_cache` option) is set — otherwise a null
resource manager is passed — and forwards `m_bComputeBoundingBoxes` (parsed from
`compute_bounds`) as the model's `ComputeBoundingBoxes` setting. -/
theorem modelCI_forwards_cache_and_bounds_flags
    (boolOpt : String → Option Bool) (strOpt : String → Option String)
    (Strides : List Nat) (st : GLTFViewerState) (Path : String) :
    (viewerAfterStartup boolOpt strOpt Strides st).m_bUseResourceCache =
      (boolOpt "use_cache").getD st.m_bUseResourceCache ∧
    (gltfViewerModelCI (viewerAfterStartup boolOpt strOpt Strides st) Path).ComputeBoundingBoxes =
      (boolOpt "compute_bounds").getD st.m_bComputeBoundingBoxes ∧
    (gltfViewerModelCI (viewerAfterStartup boolOpt strOpt Strides st) Path).pResourceManager =
      (if (viewerAfterStartup boolOpt strOpt Strides st).m_bUseResourceCache then
        some (ResourceManager.create (gltfResourceMgrCI Strides))
      else none) ∧
    (gltfViewerModelCI (viewerAfterStartup boolOpt strOpt Strides st) Path).FileName = Path := by
  cases hb : (boolOpt "use_cache").getD st.m_bUseResourceCache <;>
    simp [viewerAfterStartup, processCommandLine, initializeResourceCache,
      createGLTFResourceCacheState, gltfViewerModelCI, hb]

/-- C3 (amended: assuming the animation's duration `End` is positive and the
accumulated timer and elapsed frame time are nonnegative, as the monotonic clock and
the zero-reset timers provide): when an animation is playing, `GLTFViewer::Update`
wraps the accumulated animation time with `std::fmod` by the animation's `End` before
handing it to `ComputeTransforms`, so the time handed to the engine lies in
`[0, duration)`; the engine receives exactly the wrapped time and does not wrap it
itself. -/
theorem viewerUpdate_wraps_animation_time (m : Model) (st : GLTFViewerState)
    (ElapsedTime : ℚ)
    (hm : st.m_Model = some m) (hne : m.Animations.isEmpty = false)
    (hplay : st.m_PlayAnimation = true)
    (hdur : 0 < (m.Animations.getD st.m_AnimationIndex emptyAnimation).End)
    (ht0 : 0 ≤ st.m_AnimationTimers.getD st.m_AnimationIndex 0)
    (hel : 0 ≤ ElapsedTime) :
    (viewerUpdate ElapsedTime st).2 =
      some ⟨st.SceneIndex, st.m_ModelTransform, st.m_AnimationIndex,
        ratFmod (st.m_AnimationTimers.getD st.m_AnimationIndex 0 + ElapsedTime)
          (m.Animations.getD st.m_AnimationIndex emptyAnimation).End⟩ ∧
    (viewerUpdate ElapsedTime st).1.m_Transforms =
      computeTransforms m st.SceneIndex st.m_Transforms st.m_ModelTransform
        (some (st.m_AnimationIndex,
          ratFmod (st.m_AnimationTimers.getD st.m_AnimationIndex 0 + ElapsedTime)
            (m.Animations.getD st.m_AnimationIndex emptyAnimation).End)) ∧
    0 ≤ ratFmod (st.m_AnimationTimers.getD st.m_AnimationIndex 0 + ElapsedTime)
        (m.Animations.getD st.m_AnimationIndex emptyAnimation).End ∧
    ratFmod (st.m_AnimationTimers.getD st.m_AnimationIndex 0 + ElapsedTime)
        (m.Animations.getD st.m_AnimationIndex emptyAnimation).End <
      (m.Animations.getD st.m_AnimationIndex emptyAnimation).End := by
  have hb := ratFmod_nonneg_lt
    (st.m_AnimationTimers.getD st.m_AnimationIndex 0 + ElapsedTime)
    (m.Animations.getD st.m_AnimationIndex emptyAnimation).End
    (add_nonneg ht0 hel) hdur
  refine ⟨?_, ?_, hb.1, hb.2⟩ <;> simp [viewerUpdate, hm, hne, hplay]

/-- Witness for C3 at a concrete playing state: duration 1, timer 0, frame time 1/2. -/
theorem viewerUpdate_wraps_animation_time_witness :
    wPlayState.m_Model = some wModel ∧
    wModel.Animations.isEmpty = false ∧
    wPlayState.m_PlayAnimation = true ∧
    0 < (wModel.Animations.getD wPlayState.m_AnimationIndex emptyAnimation).End ∧
    0 ≤ wPlayState.m_AnimationTimers.getD wPlayState.m_AnimationIndex 0 ∧
    0 ≤ (1 / 2 : ℚ) ∧
    ((viewerUpdate (1 / 2) wPlayState).2 =
        some ⟨0, 1, 0, ratFmod (0 + 1 / 2) 1⟩ ∧
      (viewerUpdate (1 / 2) wPlayState).1.m_Transforms =
        computeTransforms wModel 0 wPlayState.m_Transforms 1
          (some (0, ratFmod (0 + 1 / 2) 1)) ∧
      0 ≤ ratFmod (0 + 1 / 2) 1 ∧
      ratFmod (0 + 1 / 2) 1 < 1) :=
  ⟨rfl, rfl, rfl, by decide, by decide, by norm_num,
   viewerUpdate_wraps_animation_time wModel wPlayState (1 / 2) rfl rfl rfl
     (by decide) (by decide) (by norm_num)⟩

/-- C3 counterexample: the claim as stated fails for an animation of duration
`End = 0` — the viewer still makes the call (the time `fmod(t, 0)` is handed to the
engine), but no value lies in the empty interval `[0, 0)`. -/
theorem viewerUpdate_zero_duration_cex :
    (viewerUpdate 1 cexState).2.isSome = true ∧
    ¬ (0 ≤ ((viewerUpdate 1 cexState).2.getD ⟨0, 1, 0, 0⟩).AnimationTime ∧
        ((viewerUpdate 1 cexState).2.getD ⟨0, 1, 0, 0⟩).AnimationTime <
          (cexModel.Animations.getD cexState.m_AnimationIndex emptyAnimation).End) := by
  constructor
  · rfl
  · intro hcontra
    have h1 : ((viewerUpdate 1 cexState).2.getD ⟨0, 1, 0, 0⟩).AnimationTime = 1 := by
      norm_num [viewerUpdate, cexState, cexModel, wInitState, ratFmod, ratTrunc]
    have h2 : (cexModel.Animations.getD cexState.m_AnimationIndex emptyAnimation).End = 0 := by
      norm_num [cexState, cexModel, wInitState]
    rw [h1, h2] at hcontra
    exact absurd hcontra.2 (by norm_num)

/-- Supporting lemma: one loop pass prepends its events. -/
theorem mainLoopTrace_cons (x : Option Nat) (rest : List (Option Nat)) :
    mainLoopTrace (x :: rest) = loopIteration x ++ mainLoopTrace rest := by
  simp [mainLoopTrace]

/-- C8: in the trace of the main message loop, a `renderStep` only ever occurs
immediately after the same iteration's `updateStep` and immediately before its
`presentStep`: the update (which advances animation, recomputes transforms, and may
synchronously load a model) strictly precedes the render within every frame, and no
other step interleaves between them on the single caller thread. -/
theorem mainLoop_update_before_render (inputs : List (Option Nat)) (i : Nat) :
    (mainLoopTrace inputs).get? 0 ≠ some FrameEvent.renderStep ∧
    ((mainLoopTrace inputs).get? (i + 1) = some FrameEvent.renderStep →
      (mainLoopTrace inputs).get? i = some FrameEvent.updateStep ∧
      (mainLoopTrace inputs).get? (i + 2) = some FrameEvent.presentStep) := by
  induction inputs generalizing i with
  | nil =>
    exact ⟨by simp [mainLoopTrace], fun h => by simp [mainLoopTrace] at h⟩
  | cons x rest ih =>
    cases x with
    | some mval =>
      constructor
      · intro h
        simp [mainLoopTrace_cons, loopIteration] at h
      · intro h
        have h' : (mainLoopTrace rest).get? i = some FrameEvent.renderStep := h
        cases i with
        | zero => exact absurd h' (ih 0).1
        | succ j =>
          obtain ⟨hu, hp⟩ := (ih j).2 h'
          exact ⟨hu, hp⟩
    | none =>
      constructor
      · intro h
        simp [mainLoopTrace_cons, loopIteration] at h
      · intro h
        cases i with
        | zero => exact ⟨rfl, rfl⟩
        | succ i1 =>
          cases i1 with
          | zero =>
            exact absurd h (by simp [mainLoopTrace_cons, loopIteration])
          | succ j =>
            have h' : (mainLoopTrace rest).get? j = some FrameEvent.renderStep := h
            cases j with
            | zero => exact absurd h' (ih 0).1
            | succ k =>
              obtain ⟨hu, hp⟩ := (ih k).2 h'
              exact ⟨hu, hp⟩

/-- Witness for C8 on a concrete loop run: one message iteration, then one frame. -/
theorem mainLoop_update_before_render_witness :
    (mainLoopTrace [some 7, none]).get? (1 + 1) = some FrameEvent.renderStep ∧
    ((mainLoopTrace [some 7, none]).get? 1 = some FrameEvent.updateStep ∧
      (mainLoopTrace [some 7, none]).get? (1 + 2) = some FrameEvent.presentStep) :=
  ⟨rfl, (mainLoop_update_before_render [some 7, none] 1).2 rfl⟩

/-- C7: the resource manager's capacity configuration is fully supplied by the viewer
at construction time: one vertex pool of 32768 elements whose per-stream elements
carry the strides resolved from the default GLTF vertex attributes, a default
4096×4096 2D-array texture atlas with 6 mip levels, and a 32768-byte index
allocator; the manager consumes this configuration unchanged. -/
theorem gltfResourceMgrCI_configuration (Strides : List Nat) :
    (gltfResourceMgrCI Strides).NumVertexPools = 1 ∧
    (gltfResourceMgrCI Strides).VertexPoolCIs =
      [⟨"GLTF vertex pool", 32768,
        Strides.map (fun s => ⟨s, BindFlag.VertexBuffer⟩)⟩] ∧
    (gltfResourceMgrCI Strides).DefaultAtlasDesc.Width = 4096 ∧
    (gltfResourceMgrCI Strides).DefaultAtlasDesc.Height = 4096 ∧
    (gltfResourceMgrCI Strides).DefaultAtlasDesc.MipLevels = 6 ∧
    (gltfResourceMgrCI Strides).DefaultAtlasDesc.Dim = ResourceDimension.Tex2DArray ∧
    (gltfResourceMgrCI Strides).IndexAllocatorDesc.Size = 32768 ∧
    (ResourceManager.create (gltfResourceMgrCI Strides)).CI = gltfResourceMgrCI Strides :=
  ⟨rfl, rfl, rfl, rfl, rfl, rfl, rfl, rfl⟩

/-! ## Supporting lemmas: the `LoadModel` success path -/

theorem clearAnim_play_of_init (st : GLTFViewerState)
    (hinit : st.m_Model = none → st.m_PlayAnimation = false ∧ st.m_AnimationTimers = []) :
    (clearAnimationStateOnReload st).m_PlayAnimation = false := by
  unfold clearAnimationStateOnReload
  split
  · rfl
  · next h =>
    have : st.m_Model = none := by
      cases hM : st.m_Model
      · rfl
      · rw [hM] at h; simp at h
    exact (hinit this).1

theorem clearAnim_timers_of_init (st : GLTFViewerState)
    (hinit : st.m_Model = none → st.m_PlayAnimation = false ∧ st.m_AnimationTimers = []) :
    (clearAnimationStateOnReload st).m_AnimationTimers = [] := by
  unfold clearAnimationStateOnReload
  split
  · rfl
  · next h =>
    have : st.m_Model = none := by
      cases hM : st.m_Model
      · rfl
      · rw [hM] at h; simp at h
    exact (hinit this).2

theorem vectorResize_nil (n : Nat) : vectorResize [] n = List.replicate n 0 := by
  simp [vectorResize]

theorem loadModelOk_SceneIndex (m : Model) (st : GLTFViewerState) :
    (loadModelOk m st).SceneIndex = m.DefaultSceneId := by
  unfold loadModelOk
  split <;> simp [updateScene_SceneIndex]

theorem loadModelOk_play (m : Model) (st : GLTFViewerState)
    (hP : (clearAnimationStateOnReload st).m_PlayAnimation = false) :
    (loadModelOk m st).m_PlayAnimation = !m.Animations.isEmpty := by
  unfold loadModelOk
  split
  · next h => simp at h; simp [h]
  · next h =>
    simp only [Bool.not_eq_true'] at h
    simp [h, updateScene_m_PlayAnimation, hP]

theorem loadModelOk_timers (m : Model) (st : GLTFViewerState)
    (hT : (clearAnimationStateOnReload st).m_AnimationTimers = []) :
    (loadModelOk m st).m_AnimationTimers =
      if m.Animations.isEmpty then [] else List.replicate m.Animations.length 0 := by
  unfold loadModelOk
  split
  · next h =>
    simp at h
    simp [h, updateScene_m_AnimationTimers, hT, vectorResize_nil]
  · next h =>
    simp only [Bool.not_eq_true'] at h
    simp [h, updateScene_m_AnimationTimers, hT]

theorem loadModelOk_index (m : Model) (st : GLTFViewerState)
    (hA : m.Animations.isEmpty = false) :
    (loadModelOk m st).m_AnimationIndex = 0 := by
  unfold loadModelOk
  split
  · rfl
  · next h => rw [hA] at h; simp at h

/-- C9: after every successful `LoadModel`, animation playback is enabled exactly
when the loaded model has animations; in that case the timer array has one zeroed
entry per animation and the active animation index is 0.  The hypothesis `hinit`
states the viewer's start-up invariant: before the first load (no active model) the
playback flag and timer array still have their default-initialized values. -/
theorem loadModel_success_animation_state
    (createModel : GLTFModelCreateInfo → Except LoadError Model)
    (Path : String) (st : GLTFViewerState) (m : Model)
    (hok : createModel (gltfViewerModelCI st Path) = Except.ok m)
    (hinit : st.m_Model = none → st.m_PlayAnimation = false ∧ st.m_AnimationTimers = []) :
    loadModel createModel Path st = Except.ok (loadModelOk m st) ∧
    ((loadModelOk m st).m_PlayAnimation = true ↔ m.Animations ≠ []) ∧
    (m.Animations ≠ [] →
      (loadModelOk m st).m_AnimationTimers.length = m.Animations.length ∧
      (∀ t ∈ (loadModelOk m st).m_AnimationTimers, t = 0) ∧
      (loadModelOk m st).m_AnimationIndex = 0) := by
  have hP := clearAnim_play_of_init st hinit
  have hT := clearAnim_timers_of_init st hinit
  refine ⟨by simp only [loadModel, hok], ?_, ?_⟩
  · rw [loadModelOk_play m st hP]
    cases hA : m.Animations.isEmpty
    · simp
      exact fun h => by rw [h] at hA; simp at hA
    · simp
      rw [List.isEmpty_iff] at hA
      exact hA
  · intro hne
    have hA : m.Animations.isEmpty = false := by
      cases hA : m.Animations.isEmpty
      · rfl
      · rw [List.isEmpty_iff] at hA; exact absurd hA hne
    rw [loadModelOk_timers m st hT, loadModelOk_index m st hA, hA]
    simp

/-- Witness for C9: loading a one-animation model over the fresh initial state. -/
theorem loadModel_success_animation_state_witness :
    ((fun _ => Except.ok wModel : GLTFModelCreateInfo → Except LoadError Model)
        (gltfViewerModelCI wInitState "m.gltf") = Except.ok wModel) ∧
    (wInitState.m_Model = none →
      wInitState.m_PlayAnimation = false ∧ wInitState.m_AnimationTimers = []) ∧
    (loadModel (fun _ => Except.ok wModel) "m.gltf" wInitState =
        Except.ok (loadModelOk wModel wInitState) ∧
      ((loadModelOk wModel wInitState).m_PlayAnimation = true ↔ wModel.Animations ≠ []) ∧
      (wModel.Animations ≠ [] →
        (loadModelOk wModel wInitState).m_AnimationTimers.length =
          wModel.Animations.length ∧
        (∀ t ∈ (loadModelOk wModel wInitState).m_AnimationTimers, t = 0) ∧
        (loadModelOk wModel wInitState).m_AnimationIndex = 0)) :=
  ⟨rfl, fun _ => ⟨rfl, rfl⟩,
   loadModel_success_animation_state (fun _ => Except.ok wModel) "m.gltf" wInitState
     wModel rfl (fun _ => ⟨rfl, rfl⟩)⟩

/-- C10: after every successful `LoadModel`, the selected camera is reset to the
default camera (`m_CameraId = 0`) and the camera-node list is exactly the
subsequence of the active scene's linearized node order whose nodes carry a
perspective camera — orthographic-camera and camera-less nodes are excluded. -/
theorem loadModel_success_camera_list
    (createModel : GLTFModelCreateInfo → Except LoadError Model)
    (Path : String) (st : GLTFViewerState) (m : Model)
    (hok : createModel (gltfViewerModelCI st Path) = Except.ok m)
    (hscene : m.DefaultSceneId < m.Scenes.length) :
    loadModel createModel Path st = Except.ok (loadModelOk m st) ∧
    (loadModelOk m st).m_CameraId = 0 ∧
    (loadModelOk m st).m_CameraNodes =
      (m.Scenes.getD m.DefaultSceneId emptyScene).LinearNodes.filter
        isPerspectiveCameraNode ∧
    (∀ n, n ∈ (loadModelOk m st).m_CameraNodes ↔
      (n ∈ (m.Scenes.getD m.DefaultSceneId emptyScene).LinearNodes ∧
        isPerspectiveCameraNode n = true)) ∧
    m.Scenes.getD m.DefaultSceneId emptyScene = m.Scenes.get ⟨m.DefaultSceneId, hscene⟩ := by
  have hcam : (loadModelOk m st).m_CameraNodes =
      (m.Scenes.getD m.DefaultSceneId emptyScene).LinearNodes.filter
        isPerspectiveCameraNode := by
    have hsi : ∀ st' : GLTFViewerState, st'.SceneIndex = m.DefaultSceneId →
        ({ st' with
            m_CameraId := 0,
            m_CameraNodes :=
              (m.Scenes.getD st'.SceneIndex emptyScene).LinearNodes.filter
                isPerspectiveCameraNode } : GLTFViewerState).m_CameraNodes =
          (m.Scenes.getD m.DefaultSceneId emptyScene).LinearNodes.filter
            isPerspectiveCameraNode := by
      intro st' h
      simp [h]
    unfold loadModelOk
    apply hsi
    split <;> simp [updateScene_SceneIndex]
  refine ⟨by simp only [loadModel, hok], rfl, hcam, ?_, ?_⟩
  · intro n
    rw [hcam]
    exact List.mem_filter
  · rw [List.getD_eq_getElem?_getD, List.getElem?_eq_getElem hscene]
    rfl

/-- Witness for C10: the loaded scene has one perspective-camera node, one
orthographic-camera node and one camera-less node; only the first is listed. -/
theorem loadModel_success_camera_list_witness :
    ((fun _ => Except.ok wModel : GLTFModelCreateInfo → Except LoadError Model)
        (gltfViewerModelCI wInitState "m.gltf") = Except.ok wModel) ∧
    wModel.DefaultSceneId < wModel.Scenes.length ∧
    (loadModel (fun _ => Except.ok wModel) "m.gltf" wInitState =
        Except.ok (loadModelOk wModel wInitState) ∧
      (loadModelOk wModel wInitState).m_CameraId = 0 ∧
      (loadModelOk wModel wInitState).m_CameraNodes =
        (wModel.Scenes.getD wModel.DefaultSceneId emptyScene).LinearNodes.filter
          isPerspectiveCameraNode ∧
      (∀ n, n ∈ (loadModelOk wModel wInitState).m_CameraNodes ↔
        (n ∈ (wModel.Scenes.getD wModel.DefaultSceneId emptyScene).LinearNodes ∧
          isPerspectiveCameraNode n = true)) ∧
      wModel.Scenes.getD wModel.DefaultSceneId emptyScene =
        wModel.Scenes.get ⟨wModel.DefaultSceneId, by decide⟩) :=
  ⟨rfl, by decide,
   loadModel_success_camera_list (fun _ => Except.ok wModel) "m.gltf" wInitState
     wModel rfl (by decide)⟩

/-! ## Supporting lemmas: binding-cache well-formation is maintained -/

theorem cacheInv_empty : CacheInv emptyBindingCache := by
  constructor
  · intro e he
    simp [emptyBindingCache] at he
  · simp [emptyBindingCache]

theorem cacheInv_acquire (key : BindingCacheKey) (c : BindingCache)
    (h : CacheInv c) : CacheInv (acquireBindings key c).2 := by
  obtain ⟨hid, hnd⟩ := h
  unfold acquireBindings
  cases hfind : c.Entries.find? (fun e => decide (e.1 = key)) with
  | some e => exact ⟨hid, hnd⟩
  | none =>
    constructor
    · intro e he
      simp only [List.mem_cons] at he
      cases he with
      | inl h' => rw [h']; exact Nat.lt_succ_self _
      | inr h' => exact Nat.lt_succ_of_lt (hid e h')
    · simp only [List.map_cons, List.nodup_cons]
      refine ⟨?_, hnd⟩
      intro hmem
      obtain ⟨e, he, hkey⟩ := List.mem_map.mp hmem
      have := List.find?_eq_none.mp hfind e he
      simp at this
      exact this hkey

theorem cacheInv_invalidate (poolId : Nat) (c : BindingCache)
    (h : CacheInv c) : CacheInv (invalidatePool poolId c) := by
  obtain ⟨hid, hnd⟩ := h
  constructor
  · intro e he
    exact hid e (List.mem_of_mem_filter he)
  · exact List.Nodup.sublist ((List.filter_sublist _).map _) hnd

/-- C5: after a pool growth event every cached binding set referencing the grown
pool's id is invalidated — not just entries for the affected region — and a
subsequent `acquireBindings` for the same key does not return the previously cached
`BindingSet` but a freshly rebuilt one. -/
theorem bindingCache_pool_growth_invalidates (c : BindingCache)
    (key : BindingCacheKey) (bs : BindingSet) (poolId : Nat)
    (hinv : CacheInv c)
    (hcached : (key, bs) ∈ c.Entries)
    (href : poolId ∈ bs.PoolIds) :
    (∀ e ∈ (invalidatePool poolId c).Entries, poolId ∉ e.2.PoolIds) ∧
    (acquireBindings key (invalidatePool poolId c)).1 =
      buildBindingSet key c.NextBuildId ∧
    (acquireBindings key (invalidatePool poolId c)).1 ≠ bs := by
  obtain ⟨hid, hnd⟩ := hinv
  have hall : ∀ e ∈ (invalidatePool poolId c).Entries, poolId ∉ e.2.PoolIds := by
    intro e he
    have := List.of_mem_filter he
    simp at this
    exact this
  have hfind : (invalidatePool poolId c).Entries.find?
      (fun e => decide (e.1 = key)) = none := by
    rw [List.find?_eq_none]
    intro e he
    have hmem : e ∈ c.Entries := List.mem_of_mem_filter he
    simp only [decide_eq_true_eq]
    intro hkey
    have hEq : e = (key, bs) :=
      List.inj_on_of_nodup_map hnd hmem hcached hkey
    rw [hEq] at he
    exact hall (key, bs) he href
  have hres : (acquireBindings key (invalidatePool poolId c)).1 =
      buildBindingSet key c.NextBuildId := by
    unfold acquireBindings
    rw [hfind]
    rfl
  refine ⟨hall, hres, ?_⟩
  rw [hres]
  intro hEq
  have hlt : bs.BuildId < c.NextBuildId := hid (key, bs) hcached
  have : (buildBindingSet key c.NextBuildId).BuildId = bs.BuildId := by rw [hEq]
  unfold buildBindingSet at this
  simp at this
  omega

/-- Witness for C5: one cached entry referencing pool 5, which then grows. -/
theorem bindingCache_pool_growth_invalidates_witness :
    CacheInv wCache ∧ (wKey, wCachedSet) ∈ wCache.Entries ∧ 5 ∈ wCachedSet.PoolIds ∧
    ((∀ e ∈ (invalidatePool 5 wCache).Entries, 5 ∉ e.2.PoolIds) ∧
      (acquireBindings wKey (invalidatePool 5 wCache)).1 =
        buildBindingSet wKey wCache.NextBuildId ∧
      (acquireBindings wKey (invalidatePool 5 wCache)).1 ≠ wCachedSet) :=
  ⟨by decide, by decide, by decide,
   bindingCache_pool_growth_invalidates wCache wKey wCachedSet 5 (by decide)
     (by decide) (by decide)⟩

/-! ## Supporting lemmas: the buffer-pool liveness invariant -/

theorem poolDisjoint_symm : Symmetric PoolRegion.disjoint := by
  intro a b h
  unfold PoolRegion.disjoint at *
  omega

/-- A sub-range of a range disjoint from `t` is itself disjoint from `t`. -/
theorem disjoint_of_sub (r f t : PoolRegion) (h1 : f.Offset ≤ r.Offset)
    (h2 : r.Offset + r.Count ≤ f.Offset + f.Count) (hd : f.disjoint t) :
    r.disjoint t := by
  unfold PoolRegion.disjoint at *
  omega

/-- The union of two exactly-adjacent ranges, both disjoint from a nonempty `t`, is
disjoint from `t`. -/
theorem disjoint_merge (f g t : PoolRegion) (hadj : f.Offset + f.Count = g.Offset)
    (ht : 0 < t.Count) (h1 : f.disjoint t) (h2 : g.disjoint t) :
    PoolRegion.disjoint ⟨f.Offset, f.Count + g.Count⟩ t := by
  unfold PoolRegion.disjoint at *
  dsimp only at *
  omega

/-- Characterization of a successful first-fit search: the free list splits at the
first range that can hold the request; the acquired region is its prefix and the
remainder, if nonempty, takes its place. -/
theorem firstFit_eq (n : Nat) (free : List PoolRegion) (r : PoolRegion)
    (free' : List PoolRegion) (h : firstFit n free = some (r, free')) :
    ∃ pre f post, free = pre ++ f :: post ∧ n ≤ f.Count ∧ r = ⟨f.Offset, n⟩ ∧
      free' = pre ++ (if n < f.Count then ⟨f.Offset + n, f.Count - n⟩ :: post
        else post) := by
  induction free generalizing r free' with
  | nil => simp [firstFit] at h
  | cons f rest ih =>
    rw [firstFit] at h
    split at h
    · next hle =>
      simp only [Option.some.injEq, Prod.mk.injEq] at h
      obtain ⟨h1, h2⟩ := h
      exact ⟨[], f, rest, rfl, hle, h1.symm, by rw [← h2]; rfl⟩
    · next hgt =>
      cases hff : firstFit n rest with
      | none => rw [hff] at h; simp at h
      | some pr =>
        obtain ⟨r0, rest0⟩ := pr
        rw [hff] at h
        simp only [Option.some.injEq, Prod.mk.injEq] at h
        obtain ⟨h1, h2⟩ := h
        obtain ⟨pre, g, post, he, hc, hrr, hf2⟩ := ih r0 rest0 hff
        refine ⟨f :: pre, g, post, ?_, hc, ?_, ?_⟩
        · rw [List.cons_append, ← he]
        · rw [← h1]; exact hrr
        · rw [← h2, List.cons_append, hf2]

/-- Pairwise disjointness survives a first-fit split: the acquired prefix becomes
live and the remainder stays free. -/
theorem pairwise_acquire_split (L pre post : List PoolRegion) (f : PoolRegion)
    (n : Nat) (hcnt : n ≤ f.Count)
    (hP : (L ++ (pre ++ f :: post)).Pairwise PoolRegion.disjoint) :
    ((⟨f.Offset, n⟩ :: L) ++
      (pre ++ if n < f.Count then ⟨f.Offset + n, f.Count - n⟩ :: post
        else post)).Pairwise PoolRegion.disjoint := by
  have hsym : ∀ {x y : PoolRegion}, x.disjoint y → y.disjoint x :=
    fun h => poolDisjoint_symm h
  have hperm1 : List.Perm (L ++ (pre ++ f :: post)) (f :: (L ++ (pre ++ post))) := by
    have h1 : L ++ (pre ++ f :: post) = (L ++ pre) ++ f :: post := by
      rw [List.append_assoc]
    have h2 : f :: ((L ++ pre) ++ post) = f :: (L ++ (pre ++ post)) := by
      rw [List.append_assoc]
    rw [h1, ← h2]
    exact List.perm_middle
  have hPf := (hperm1.pairwise_iff hsym).mp hP
  rw [List.pairwise_cons] at hPf
  obtain ⟨hf, hM⟩ := hPf
  split
  · next hlt =>
    have hperm2 : List.Perm
        ((⟨f.Offset, n⟩ :: L) ++ (pre ++ ⟨f.Offset + n, f.Count - n⟩ :: post))
        (⟨f.Offset, n⟩ :: ⟨f.Offset + n, f.Count - n⟩ :: (L ++ (pre ++ post))) := by
      rw [List.cons_append]
      refine List.Perm.cons _ ?_
      have h1 : L ++ (pre ++ ⟨f.Offset + n, f.Count - n⟩ :: post)
          = (L ++ pre) ++ ⟨f.Offset + n, f.Count - n⟩ :: post := by
        rw [List.append_assoc]
      have h2 : ⟨f.Offset + n, f.Count - n⟩ :: ((L ++ pre) ++ post)
          = (⟨f.Offset + n, f.Count - n⟩ : PoolRegion) :: (L ++ (pre ++ post)) := by
        rw [List.append_assoc]
      rw [h1, ← h2]
      exact List.perm_middle
    refine (hperm2.pairwise_iff hsym).mpr ?_
    rw [List.pairwise_cons]
    constructor
    · intro b hb
      rcases List.mem_cons.mp hb with hb | hb
      · rw [hb]
        exact Or.inl (Nat.le_refl _)
      · exact disjoint_of_sub _ f _ (Nat.le_refl _)
          (Nat.add_le_add_left hcnt _) (hf b hb)
    · rw [List.pairwise_cons]
      refine ⟨?_, hM⟩
      intro b hb
      refine disjoint_of_sub _ f _ (Nat.le_add_right _ _) ?_ (hf b hb)
      dsimp only
      omega
  · next hge =>
    rw [List.cons_append, List.pairwise_cons]
    refine ⟨?_, hM⟩
    intro b hb
    exact disjoint_of_sub _ f _ (Nat.le_refl _)
      (Nat.add_le_add_left hcnt _) (hf b hb)

/-- `acquire` preserves the pool invariant. -/
theorem acquire_inv (n : Nat) (p : BufferPool) (hp : PoolInv p) :
    PoolInv (acquire n p).2 := by
  obtain ⟨hPW, hPos⟩ := hp
  unfold acquire
  split
  · exact ⟨hPW, hPos⟩
  · next hn0 =>
    split
    · exact ⟨hPW, hPos⟩
    · next r free' heq =>
      obtain ⟨pre, f, post, hfl, hcnt, hr, hf2⟩ := firstFit_eq n p.FreeList r free' heq
      constructor
      · show ((r :: p.Live) ++ free').Pairwise _
        rw [hr, hf2, List.cons_append]
        rw [hfl] at hPW
        have := pairwise_acquire_split p.Live pre post f n hcnt hPW
        rwa [List.cons_append] at this
      · intro x hx
        have hx' : x ∈ (r :: p.Live) ++ free' := hx
        rcases List.mem_append.mp hx' with hx1 | hx1
        · rcases List.mem_cons.mp hx1 with hx2 | hx2
          · rw [hx2, hr]
            exact Nat.pos_of_ne_zero hn0
          · exact hPos x (List.mem_append_left _ hx2)
        · rw [hf2] at hx1
          rcases List.mem_append.mp hx1 with hx2 | hx2
          · exact hPos x (List.mem_append_right _ (by rw [hfl]; exact List.mem_append_left _ hx2))
          · split at hx2
            · next hlt =>
              rcases List.mem_cons.mp hx2 with hx3 | hx3
              · rw [hx3]
                dsimp only
                omega
              · exact hPos x (List.mem_append_right _
                  (by rw [hfl]; exact List.mem_append_right _ (List.mem_cons_of_mem f hx3)))
            · exact hPos x (List.mem_append_right _
                (by rw [hfl]; exact List.mem_append_right _ (List.mem_cons_of_mem f hx2)))

theorem insertFree_perm (r : PoolRegion) (l : List PoolRegion) :
    List.Perm (insertFree r l) (r :: l) := by
  induction l with
  | nil => exact List.Perm.refl _
  | cons f rest ih =>
    rw [insertFree]
    split
    · exact List.Perm.refl _
    · exact (List.Perm.cons f ih).trans (List.Perm.swap r f rest)

theorem coalesce_pos (l : List PoolRegion) :
    (∀ x ∈ l, 0 < x.Count) → ∀ x ∈ coalesce l, 0 < x.Count := by
  induction l using coalesce.induct with
  | case1 => intro _; simp [coalesce]
  | case2 f => intro h; simpa [coalesce] using h
  | case3 f g rest hadj ih =>
    intro h
    rw [coalesce, if_pos hadj]
    apply ih
    intro x hx
    rcases List.mem_cons.mp hx with hx | hx
    · rw [hx]
      have := h f (by simp)
      dsimp only
      omega
    · exact h x (by simp [hx])
  | case4 f g rest hadj ih =>
    intro h
    rw [coalesce, if_neg hadj]
    intro x hx
    rcases List.mem_cons.mp hx with hx | hx
    · rw [hx]; exact h f (by simp)
    · exact ih (fun y hy => h y (List.mem_cons_of_mem f hy)) x hx

/-- Anything disjoint from every range of a list is disjoint from every range of its
coalescing. -/
theorem coalesce_disjoint_of (t : PoolRegion) (ht : 0 < t.Count)
    (l : List PoolRegion) :
    (∀ x ∈ l, x.disjoint t) → ∀ x ∈ coalesce l, x.disjoint t := by
  induction l using coalesce.induct with
  | case1 => intro _; simp [coalesce]
  | case2 f => intro h; simpa [coalesce] using h
  | case3 f g rest hadj ih =>
    intro h
    rw [coalesce, if_pos hadj]
    apply ih
    intro x hx
    rcases List.mem_cons.mp hx with hx | hx
    · rw [hx]
      exact disjoint_merge f g t hadj ht (h f (by simp)) (h g (by simp))
    · exact h x (by simp [hx])
  | case4 f g rest hadj ih =>
    intro h
    rw [coalesce, if_neg hadj]
    intro x hx
    rcases List.mem_cons.mp hx with hx | hx
    · rw [hx]; exact h f (by simp)
    · exact ih (fun y hy => h y (List.mem_cons_of_mem f hy)) x hx

theorem coalesce_pairwise (l : List PoolRegion) :
    (∀ x ∈ l, 0 < x.Count) → l.Pairwise PoolRegion.disjoint →
    (coalesce l).Pairwise PoolRegion.disjoint := by
  induction l using coalesce.induct with
  | case1 => intro _ _; simp [coalesce]
  | case2 f => intro _ _; simp [coalesce]
  | case3 f g rest hadj ih =>
    intro hpos hpw
    rw [coalesce, if_pos hadj]
    rw [List.pairwise_cons] at hpw
    obtain ⟨hf, hpw1⟩ := hpw
    rw [List.pairwise_cons] at hpw1
    obtain ⟨hg, hpw2⟩ := hpw1
    apply ih
    · intro x hx
      rcases List.mem_cons.mp hx with hx | hx
      · rw [hx]
        have := hpos f (by simp)
        dsimp only
        omega
      · exact hpos x (by simp [hx])
    · rw [List.pairwise_cons]
      refine ⟨?_, hpw2⟩
      intro t htmem
      exact disjoint_merge f g t hadj (hpos t (by simp [htmem]))
        (hf t (List.mem_cons_of_mem g htmem)) (hg t htmem)
  | case4 f g rest hadj ih =>
    intro hpos hpw
    rw [coalesce, if_neg hadj]
    rw [List.pairwise_cons] at hpw
    obtain ⟨hf, hpw1⟩ := hpw
    rw [List.pairwise_cons]
    refine ⟨?_, ih (fun y hy => hpos y (List.mem_cons_of_mem f hy)) hpw1⟩
    intro b hb
    have hfpos : 0 < f.Count := hpos f (by simp)
    exact poolDisjoint_symm (coalesce_disjoint_of f hfpos (g :: rest)
      (fun y hy => poolDisjoint_symm (hf y hy)) b hb)

/-- `release` preserves the pool invariant. -/
theorem release_inv (r : PoolRegion) (p : BufferPool) (hp : PoolInv p) :
    PoolInv (release r p) := by
  obtain ⟨hPW, hPos⟩ := hp
  unfold release
  split
  · next hmem =>
    have hsym : ∀ {x y : PoolRegion}, x.disjoint y → y.disjoint x :=
    fun h => poolDisjoint_symm h
    have hLperm : List.Perm p.Live (r :: p.Live.erase r) := List.perm_cons_erase hmem
    have hperm1 : List.Perm (p.Live ++ p.FreeList)
        (r :: (p.Live.erase r ++ p.FreeList)) :=
      hLperm.append_right p.FreeList
    have hPW1 := (hperm1.pairwise_iff hsym).mp hPW
    rw [List.pairwise_cons] at hPW1
    obtain ⟨hrAll, hPW2⟩ := hPW1
    have hPos1 : ∀ x ∈ p.Live.erase r ++ p.FreeList, 0 < x.Count := by
      intro x hx
      exact hPos x (hperm1.symm.subset (List.mem_cons_of_mem r hx))
    have hrpos : 0 < r.Count := hPos r (hperm1.symm.subset (List.mem_cons_self r _))
    obtain ⟨hPWe, hPWf, hcross⟩ := List.pairwise_append.mp hPW2
    have hIperm : List.Perm (insertFree r p.FreeList) (r :: p.FreeList) :=
      insertFree_perm r p.FreeList
    have hIpos : ∀ x ∈ insertFree r p.FreeList, 0 < x.Count := by
      intro x hx
      rcases List.mem_cons.mp (hIperm.subset hx) with h | h
      · rw [h]; exact hrpos
      · exact hPos x (List.mem_append_right _ h)
    have hIpw : (insertFree r p.FreeList).Pairwise PoolRegion.disjoint := by
      refine (hIperm.pairwise_iff hsym).mpr ?_
      rw [List.pairwise_cons]
      exact ⟨fun b hb => hrAll b (List.mem_append_right _ hb), hPWf⟩
    have hCpos := coalesce_pos (insertFree r p.FreeList) hIpos
    have hCpw := coalesce_pairwise (insertFree r p.FreeList) hIpos hIpw
    constructor
    · show (p.Live.erase r ++ coalesce (insertFree r p.FreeList)).Pairwise _
      rw [List.pairwise_append]
      refine ⟨hPWe, hCpw, ?_⟩
      intro a ha b hb
      have hapos : 0 < a.Count := hPos1 a (List.mem_append_left _ ha)
      have hbd : ∀ y ∈ insertFree r p.FreeList, y.disjoint a := by
        intro y hy
        rcases List.mem_cons.mp (hIperm.subset hy) with h | h
        · rw [h]; exact hrAll a (List.mem_append_left _ ha)
        · exact hsym (hcross a ha y h)
      exact hsym (coalesce_disjoint_of a hapos (insertFree r p.FreeList) hbd b hb)
    · intro x hx
      have hx' : x ∈ p.Live.erase r ++ coalesce (insertFree r p.FreeList) := hx
      rcases List.mem_append.mp hx' with h | h
      · exact hPos1 x (List.mem_append_left _ h)
      · exact hCpos x h
  · exact ⟨hPW, hPos⟩

theorem applyOp_inv (p : BufferPool) (op : PoolOp) (hp : PoolInv p) :
    PoolInv (applyOp p op) := by
  cases op with
  | acquireOp n => exact acquire_inv n p hp
  | releaseOp r => exact release_inv r p hp

theorem applyOps_inv (ops : List PoolOp) (p : BufferPool) (hp : PoolInv p) :
    PoolInv (applyOps p ops) := by
  induction ops generalizing p with
  | nil => exact hp
  | cons op rest ih => exact ih (applyOp p op) (applyOp_inv p op hp)

theorem initPool_inv (stride capacity : Nat) : PoolInv (initPool stride capacity) := by
  constructor
  · by_cases hc : capacity = 0 <;> simp [initPool, hc]
  · intro x hx
    by_cases hc : capacity = 0
    · simp [initPool, hc] at hx
    · simp [initPool, hc] at hx
      rw [hx]
      exact Nat.pos_of_ne_zero hc

/-- C4: for every sequence of acquire/release operations on one buffer pool, no two
live regions overlap in byte range.  Every prefix of a sequence is itself a
sequence, so the statement covers every intermediate point of the interaction. -/
theorem pool_live_regions_never_overlap (stride capacity : Nat)
    (ops : List PoolOp) :
    (applyOps (initPool stride capacity) ops).Live.Pairwise
      (fun r s => ¬ PoolRegion.bytesOverlap stride r s) := by
  obtain ⟨hPW, -⟩ :=
    applyOps_inv ops (initPool stride capacity) (initPool_inv stride capacity)
  have hLive := (List.pairwise_append.mp hPW).1
  refine hLive.imp ?_
  intro a b hd hov
  obtain ⟨h1, h2⟩ := hov
  unfold PoolRegion.disjoint at hd
  rcases hd with h | h
  · exact absurd h2 (Nat.not_lt.mpr (Nat.mul_le_mul_right stride h))
  · exact absurd h1 (Nat.not_lt.mpr (Nat.mul_le_mul_right stride h))

end Diligent
